import Mathlib

/-!
Verification of the OFZ price-oracle bridge (`ofz-contracts`).

Shallow embedding of the Python sources:
  * `backend/OffchainPriceProvider/get_ofz_prices.py`  (price resolution)
  * `backend/OffchainPriceProvider/app.py`             (HTTP endpoints, scaling)
  * `backend/OffchainPriceProvider/nonce_manager.py`   (persistent nonce)
  * `backend/OffchainPriceProvider/cache_manager.py`   (TTL file cache)
  * `backend/OffchainPriceProvider/signature_utils.py` (EIP-712 signing)
  * `backend/OnchainPricePublisher/publisher.py`       (publish decisions)

Python numbers are modelled by exact rationals `ℚ` and by `ℕ`/`ℤ` where the
source works with integers; Python `round` (round-half-to-even) is modelled
explicitly; fallible operations return `Option`.
-/

namespace OfzContracts

/-! ## JSON-ish values used in price entries -/

/-- A JSON-like scalar value used in a price entry of a snapshot. -/
inductive JVal where
  | num (q : ℚ)
  | str (s : String)
  | bool (b : Bool)
  deriving DecidableEq

/-- One SECID's price entry: an ordered mapping of field name to value
(models the Python dict `price_info`). -/
abbrev PriceInfo := List (String × JVal)

/-- The full price snapshot persisted by the cache:
`{"timestamp": ..., "prices": {secid: price_info, ...}}`. -/
structure PriceSnapshot where
  timestamp : ℤ
  prices : List (String × PriceInfo)
  deriving DecidableEq

/-! ## Price resolution (`get_ofz_prices.py`) -/

/-- The per-instrument market snapshot row: the six price fields read by
`market_prices` from the exchange `marketdata` block, each possibly null. -/
structure MarketData where
  marketprice : Option ℚ
  last : Option ℚ
  lcloseprice : Option ℚ
  waprice : Option ℚ
  prevwaprice : Option ℚ
  closeprice : Option ℚ
  deriving DecidableEq

/-- One daily candle row (columns `begin`, `close`). -/
structure Candle where
  beginDate : String
  close : ℚ
  deriving DecidableEq

/-- `market_prices` (get_ofz_prices.py, lines 17-44): scan the six price
fields in the fixed priority order and return the first non-null value
together with the name of the field it came from; `(None, None)` — here
`none` — when all six are null. -/
def market_prices (md : MarketData) : Option (ℚ × String) :=
  match md.marketprice with
  | some v => some (v, "MARKETPRICE")
  | none =>
  match md.last with
  | some v => some (v, "LAST")
  | none =>
  match md.lcloseprice with
  | some v => some (v, "LCLOSEPRICE")
  | none =>
  match md.waprice with
  | some v => some (v, "WAPRICE")
  | none =>
  match md.prevwaprice with
  | some v => some (v, "PREVWAPRICE")
  | none =>
  match md.closeprice with
  | some v => some (v, "CLOSEPRICE")
  | none => none

/-- Result record of `get_price_detailed`. -/
structure PriceDetail where
  price : Option ℚ
  price_percentage : Option ℚ
  priceSource : Option String
  nominal : ℚ
  deriving DecidableEq

/-- `get_price_detailed` (get_ofz_prices.py, lines 171-230).
Inputs beyond the market row: `nominal0` is `get_bond_details(secid)["initialPrice"]`
(possibly null) and `candles` is the `daily_candles(secid, today-7d, today)` rows. -/
def get_price_detailed (nominal0 : Option ℚ) (md : MarketData)
    (candles : List Candle) : PriceDetail :=
  let nominal : ℚ :=
    match nominal0 with
    | none => 100
    | some n => if n ≤ 0 then 100 else n
  match market_prices md with
  | some (pct, src) =>
      { price := some (pct * nominal / 100)
        price_percentage := some pct
        priceSource := some src
        nominal := nominal }
  | none =>
      match candles.getLast? with
      | some c =>
          { price := some (c.close * nominal / 100)
            price_percentage := some c.close
            priceSource := some "candle"
            nominal := nominal }
      | none =>
          { price := none, price_percentage := none
            priceSource := none, nominal := nominal }

/-- `get_price` (get_ofz_prices.py, lines 232-252): returns
`(price, is_current_market_data)` where `price` is the absolute value
computed by `get_price_detailed` and
`is_current = priceSource != "candle" if price is not None else False`. -/
def get_price (nominal0 : Option ℚ) (md : MarketData)
    (candles : List Candle) : Option ℚ × Bool :=
  let info := get_price_detailed nominal0 md candles
  match info.price with
  | some p => (some p, info.priceSource != some "candle")
  | none => (none, false)

/-- The six market-snapshot fields in the spec's fixed priority order. -/
def specScanFields (md : MarketData) : List (Option ℚ) :=
  [md.marketprice, md.last, md.lcloseprice, md.waprice,
   md.prevwaprice, md.closeprice]

/-- The PriceResolver `price` operation exactly as the spec words it
(spec §4.2): first non-null market field as a percentage of face value with
`is_current = true`; else the close of the last candle row with `false`;
else `(null, false)`. Written from the spec for comparison with `get_price`. -/
def resolverSpec (md : MarketData) (candles : List Candle) : Option ℚ × Bool :=
  match (specScanFields md).findSome? id with
  | some v => (some v, true)
  | none =>
    match candles.getLast? with
    | some c => (some c.close, false)
    | none => (none, false)

/-- The amended resolver claim: `get_price` returns the ABSOLUTE price
`value * nominal / 100` (with `nominal` defaulting to 100 when absent or
non-positive), not the raw percentage; scan order, candle fallback and the
`is_current` flag are as the original claim states. -/
def resolverAmendedSpec (nominal0 : Option ℚ) (md : MarketData)
    (candles : List Candle) : Option ℚ × Bool :=
  let nominal : ℚ :=
    match nominal0 with
    | none => 100
    | some n => if n ≤ 0 then 100 else n
  match (specScanFields md).findSome? id with
  | some v => (some (v * nominal / 100), true)
  | none =>
    match candles.getLast? with
    | some c => (some (c.close * nominal / 100), false)
    | none => (none, false)

/-! ## Integer scaling (`app.py`) -/

/-- Python's built-in `round` on an exact value: round half to even. -/
def pyRound (q : ℚ) : ℤ :=
  let f := ⌊q⌋
  let r := q - (f : ℚ)
  if r < 1 / 2 then f
  else if 1 / 2 < r then f + 1
  else if f % 2 = 0 then f else f + 1

/-- `price_uint` as computed by the whole-snapshot endpoint `GET /api/prices`
(app.py, line 150): `int(round(float(price) * 100)) * (PRICE_SCALING_FACTOR // 100)`. -/
def price_uint_all (price : ℚ) (S : ℕ) : ℤ :=
  pyRound (price * 100) * (S / 100 : ℕ)

/-- `price_uint` as computed by the single-entry endpoint `GET /api/prices/{secid}`
(app.py, line 205): `int(round(float(price) * 1000)) * (PRICE_SCALING_FACTOR // 1000)`. -/
def price_uint_secid (price : ℚ) (S : ℕ) : ℤ :=
  pyRound (price * 1000) * (S / 1000 : ℕ)

/-- The scaling rule as the spec fixes it for both endpoints:
`scaled = round(price * 1000) * (S / 1000)`. Written from the spec. -/
def scaledPriceSpec (price : ℚ) (S : ℕ) : ℤ :=
  pyRound (price * 1000) * (S / 1000 : ℕ)

/-! ## Nonce manager (`nonce_manager.py`) -/

/-- State of the nonce file on disk:
`none` — the file is absent; `some none` — the file exists but is
unreadable / corrupted JSON; `some (some n)` — the file holds `{"nonce": n}`. -/
abbrev NonceFile := Option (Option ℕ)

/-- `NonceManager._load_nonce` (nonce_manager.py, lines 38-53): the
`current_nonce` that results from (re)loading the nonce file. An absent
file and a corrupted file both yield 0. -/
def load_nonce : NonceFile → ℕ
  | none => 0
  | some none => 0
  | some (some n) => n

/-- `NonceManager._save_nonce` (nonce_manager.py, lines 55-62): writes
`{"nonce": n}` directly to the nonce file (a plain in-place `open(path, "w")`,
no temporary file and no rename). The new file contents replace the old. -/
def save_nonce (n : ℕ) (_fs : NonceFile) : NonceFile :=
  some (some n)

/-- `NonceManager.get_next_nonce` (nonce_manager.py, lines 64-78) acting on
the in-memory counter: increments, then returns the new value.
Result is `(returned nonce, new counter state)`. -/
def get_next_nonce (current_nonce : ℕ) : ℕ × ℕ :=
  (current_nonce + 1, current_nonce + 1)

/-- The list of nonces returned by `k` successive `get_next_nonce` calls
starting from in-memory counter `s` (no reload in between). -/
def nonceReturns (s : ℕ) : ℕ → List ℕ
  | 0 => []
  | k + 1 =>
      let step := get_next_nonce s
      step.1 :: nonceReturns step.2 k

/-- The nonce file contents after `k` successive `get_next_nonce` calls
starting from counter `s` and file `fs` (each call saves in place). -/
def nonceFileAfter (s : ℕ) (fs : NonceFile) : ℕ → NonceFile
  | 0 => fs
  | k + 1 =>
      let step := get_next_nonce s
      nonceFileAfter step.2 (save_nonce step.1 fs) k

/-! ## Price cache (`cache_manager.py`) -/

/-- State of the cache file: `mtime` is the file modification time and
`content` is the result of JSON-parsing it (`none` when corrupted or
unreadable). -/
structure CacheFileState where
  mtime : ℚ
  content : Option PriceSnapshot

/-- `CacheManager.get_cached_data` (cache_manager.py, lines 23-44):
absent file → `None`; `now - mtime > ttl` → `None` (expired); otherwise
the parse result, with a parse failure also yielding `None`. Total — the
source catches `JSONDecodeError`/`IOError`, so no exception escapes. -/
def get_cached_data (now ttl : ℚ) : Option CacheFileState → Option PriceSnapshot
  | none => none
  | some f => if now - f.mtime > ttl then none else f.content

/-! ## HTTP signature stripping (`app.py`) -/

/-- The per-entry filtering used by `GET /api/prices` without `?sign`
(app.py, line 131): `{k: v for k, v in price_info.items() if k != 'signature'}`. -/
def strip_signature (info : PriceInfo) : PriceInfo :=
  info.filter (fun kv => kv.1 != "signature")

/-- The cached-data branch of `GET /api/prices` (app.py, lines 119-135):
when no signature is requested and the snapshot's price map is non-empty
("truthy"), rebuild it with each entry stripped of its `signature` key;
otherwise return the cached snapshot unchanged. -/
def get_all_prices_cached (with_signature : Bool) (cached : PriceSnapshot) :
    PriceSnapshot :=
  if !with_signature && !cached.prices.isEmpty then
    { timestamp := cached.timestamp
      prices := cached.prices.map (fun p => (p.1, strip_signature p.2)) }
  else cached

/-- The cached-data branch of `GET /api/prices/{secid}` (app.py, lines
182-195): on a hit, strip the `signature` key only when no signature was
requested and the entry has one; answer `(timestamp, entry)`. `none` models
falling through to the fresh-fetch branch. -/
def get_price_for_secid_cached (with_signature : Bool) (cached : PriceSnapshot)
    (secid : String) : Option (ℤ × PriceInfo) :=
  match cached.prices.lookup secid with
  | some info =>
      let info2 :=
        if !with_signature && info.any (fun kv => kv.1 == "signature") then
          strip_signature info
        else info
      some (cached.timestamp, info2)
  | none => none

/-! ## Deviation gate (`publisher.py`) -/

/-- `PriceService.should_update_price` (publisher.py, lines 507-547):
unregistered (`None`) → no update; zero current price → update; otherwise
update iff `abs(new - current) / current * 100 >= threshold`, computed here
in exact rational arithmetic. -/
def should_update_price (threshold : ℚ) (new_price : ℤ)
    (current_price : Option ℤ) : Bool :=
  match current_price with
  | none => false
  | some c =>
      if c = 0 then true
      else decide (|((new_price : ℚ)) - (c : ℚ)| / (c : ℚ) * 100 ≥ threshold)

/-! ## Bytes and hex utilities -/

/-- Byte strings: lists of naturals, each intended `< 256`. -/
abbrev Bytes := List ℕ

/-- `k`-byte big-endian encoding of `n mod 2^(8k)` (models Python's
`int.to_bytes(k, "big")` and the 32-byte words of `eth_abi.encode`). -/
def beBytes : ℕ → ℕ → Bytes
  | 0, _ => []
  | k + 1, n => beBytes k (n / 256) ++ [n % 256]

/-- Lowercase hex digit for a value `< 16`. -/
def hexDigitChar (n : ℕ) : Char :=
  if n < 10 then Char.ofNat (48 + n) else Char.ofNat (87 + n)

/-- Lowercase hex rendering of a byte string (Python `bytes.hex()`). -/
def hexOfBytes (bs : Bytes) : String :=
  String.mk ((bs.map (fun b => [hexDigitChar (b / 16), hexDigitChar (b % 16)])).flatten)

/-- Value of one hex digit character, accepting both cases. -/
def hexCharVal (c : Char) : Option ℕ :=
  if 48 ≤ c.toNat ∧ c.toNat ≤ 57 then some (c.toNat - 48)
  else if 97 ≤ c.toNat ∧ c.toNat ≤ 102 then some (c.toNat - 87)
  else if 65 ≤ c.toNat ∧ c.toNat ≤ 70 then some (c.toNat - 55)
  else none

/-- Decode a hex character list two digits at a time (models
`bytes.fromhex` on space-free input): odd length or a non-hex digit fails. -/
def hexPairsDecode : List Char → Option Bytes
  | [] => some []
  | [_] => none
  | c1 :: c2 :: rest =>
      match hexCharVal c1, hexCharVal c2, hexPairsDecode rest with
      | some h, some l, some bs => some ((16 * h + l) :: bs)
      | _, _, _ => none

/-- UTF-8 bytes of a string (Python `str.encode()` / `web3.keccak(text=...)`
input). -/
def strBytes (s : String) : Bytes :=
  s.toUTF8.toList.map (fun b => b.toNat)

/-! ## EIP-712 signing (`signature_utils.py`) -/

/-- The ambient collaborators of `create_signature`: the keccak-256 hash
(via `web3.keccak`), the secp256k1 signing primitive over the configured
private key (`eth_keys` `sign_msg_hash`, returning `(r, s, v)`), and the
configuration values it reads. Cryptographic primitives are opaque
parameters of the embedding. -/
structure SignerEnv where
  keccak : Bytes → Bytes
  signHash : Bytes → ℕ × ℕ × ℕ
  chainId : ℕ
  verifyingContract : ℕ
  signatureExpiry : ℕ

/-- `create_signature` (signature_utils.py, lines 19-155), called with no
explicit nonce or deadline: draws the nonce from the nonce manager
(`nonceState` is the manager's in-memory counter), sets
`deadline = now + SIGNATURE_EXPIRY_SECONDS`, builds the EIP-712 domain
separator and `PriceUpdate` struct hash, signs
`keccak256(0x19 || 0x01 || D || H)`, normalises `v` (add 27 when `v < 27`)
and ABI-encodes `(bytes32 r, bytes32 s, uint8 v)` as `0x`-prefixed hex.
Result: `((signature_hex, nonce, deadline), new nonce counter)`. -/
def create_signature (env : SignerEnv) (nonceState now : ℕ)
    (secid : String) (price : ℕ) : (String × ℕ × ℕ) × ℕ :=
  let nonce := (get_next_nonce nonceState).1
  let nonceState2 := (get_next_nonce nonceState).2
  let deadline := now + env.signatureExpiry
  let domain_type_hash := env.keccak (strBytes
    "EIP712Domain(string name,string version,uint256 chainId,address verifyingContract)")
  let name_hash := env.keccak (strBytes "BondOracle")
  let version_hash := env.keccak (strBytes "1")
  let encoded_domain := domain_type_hash ++ name_hash ++ version_hash ++
    beBytes 32 env.chainId ++ beBytes 32 env.verifyingContract
  let domain_separator := env.keccak encoded_domain
  let price_update_type_hash := env.keccak (strBytes
    "PriceUpdate(string secid,uint160 price,uint256 nonce,uint256 deadline)")
  let secid_hash := env.keccak (strBytes secid)
  let encoded_struct := price_update_type_hash ++ secid_hash ++
    beBytes 32 price ++ beBytes 32 nonce ++ beBytes 32 deadline
  let struct_hash := env.keccak encoded_struct
  let message_hash := env.keccak ([0x19, 0x01] ++ domain_separator ++ struct_hash)
  let rsv := env.signHash message_hash
  let r := rsv.1
  let s := rsv.2.1
  let v := rsv.2.2
  let v_adjusted := if v < 27 then v + 27 else v
  let signature_bytes := beBytes 32 r ++ beBytes 32 s ++ beBytes 32 v_adjusted
  let signature_hex := "0x" ++ hexOfBytes signature_bytes
  ((signature_hex, nonce, deadline), nonceState2)

/-- The Signer `sign` operation exactly as the spec words it (spec §4.4,
steps 1-6), over the same opaque crypto primitives. Written from the spec
for comparison with `create_signature`. -/
def signerSpec (env : SignerEnv) (nonceState now : ℕ)
    (secid : String) (price : ℕ) : (String × ℕ × ℕ) × ℕ :=
  let nonce := nonceState + 1
  let deadline := now + env.signatureExpiry
  let domainTypeHash := env.keccak (strBytes
    "EIP712Domain(string name,string version,uint256 chainId,address verifyingContract)")
  let d := env.keccak (domainTypeHash ++ env.keccak (strBytes "BondOracle") ++
    env.keccak (strBytes "1") ++ beBytes 32 env.chainId ++
    beBytes 32 env.verifyingContract)
  let priceUpdateTypeHash := env.keccak (strBytes
    "PriceUpdate(string secid,uint160 price,uint256 nonce,uint256 deadline)")
  let h := env.keccak (priceUpdateTypeHash ++ env.keccak (strBytes secid) ++
    beBytes 32 price ++ beBytes 32 nonce ++ beBytes 32 deadline)
  let m := env.keccak (0x19 :: 0x01 :: (d ++ h))
  let rsv := env.signHash m
  let vNorm := if rsv.2.2 < 27 then rsv.2.2 + 27 else rsv.2.2
  let blob := beBytes 32 rsv.1 ++ beBytes 32 rsv.2.1 ++ beBytes 32 vNorm
  (("0x" ++ hexOfBytes blob, nonce, deadline), nonce)

/-! ## Publisher single-update step (`publisher.py`) -/

/-- The offchain attestation fields extracted by
`process_single_price_update` from one `/api/prices/{secid}?sign=true`
entry; each may be missing. -/
structure OffchainData where
  price_uint : Option ℕ
  signature : Option String
  deadline : Option ℕ
  nonce : Option ℕ

/-- The transaction submission produced by a publish step: the arguments
handed to `send_update_price_transaction`. -/
structure TxRequest where
  secid : String
  price_uint : ℕ
  deadline : ℕ
  nonce : ℕ
  signature_bytes : Bytes
  deriving DecidableEq

/-- `PriceService.prepare_signature` (publisher.py, lines 460-505): strip a
leading `0x` when present (`signature_hex.startswith("0x")`, here a match on
the first two characters) and convert the hex to bytes; invalid hex raises
(modelled as `none`, caught by the step's exception handler). -/
def prepare_signature (signature_hex : String) : Option Bytes :=
  hexPairsDecode
    (match signature_hex.toList with
     | '0' :: 'x' :: rest => rest
     | cs => cs)

/-- `PricePublisher.process_single_price_update` (publisher.py, lines
711-765): skip when any attestation field is missing; read the onchain
price (`current_price`, `none` when the bond is unregistered); run the
deviation gate; decode the signature; skip when `deadline <= now`; else
submit a transaction with exactly the signed values. `none` means no
transaction is submitted for this SECID in this cycle (any raised error is
caught, also yielding no transaction). -/
def process_single_price_update (threshold : ℚ) (now : ℕ)
    (current_price : Option ℤ) (secid : String) (data : OffchainData) :
    Option TxRequest :=
  match data.price_uint, data.signature, data.deadline, data.nonce with
  | some p, some sig, some d, some n =>
      if should_update_price threshold (p : ℤ) current_price then
        match prepare_signature sig with
        | some sigBytes =>
            if d ≤ now then none
            else some ⟨secid, p, d, n, sigBytes⟩
        | none => none
      else none
  | _, _, _, _ => none

/-! ## The full single-SECID price endpoint (`app.py`, lines 176-231) -/

/-- The fresh-fetch branch of `GET /api/prices/{secid}` (app.py, lines
198-229): resolve the price (`get_price`), 404 (`none`) when it is missing
or zero (`if price:`), scale with the 3-decimal rule, and append
`signature`/`nonce`/`deadline` fields only when `?sign` was given. -/
def fresh_price_info (withSig : Bool) (S : ℕ) (env : SignerEnv)
    (nonceState now : ℕ) (secid : String) (nominal0 : Option ℚ)
    (md : MarketData) (candles : List Candle) : Option PriceInfo :=
  match get_price nominal0 md candles with
  | (some p, is_current) =>
      if p = 0 then none
      else
        let pu := price_uint_secid p S
        let base : PriceInfo :=
          [("price", JVal.num p),
           ("price_uint", JVal.num (pu : ℚ)),
           ("is_current_market_data", JVal.bool is_current),
           ("data_source",
            JVal.str (if is_current then "market_price" else "daily_candle"))]
        if withSig then
          let res := create_signature env nonceState now secid pu.toNat
          some (base ++
            [("signature", JVal.str res.1.1),
             ("nonce", JVal.num (res.1.2.1 : ℚ)),
             ("deadline", JVal.num (res.1.2.2 : ℚ))])
        else some base
  | (none, _) => none

/-- `GET /api/prices/{secid}` (app.py, lines 176-231): serve from the cache
when the snapshot is fresh and holds the SECID (stripping the signature for
unsigned requests); otherwise fall through to the fresh-fetch branch.
`none` models the 404 response. -/
def get_price_for_secid_route (withSig : Bool) (cached : Option PriceSnapshot)
    (secid : String) (S : ℕ) (env : SignerEnv) (nonceState now : ℕ)
    (nominal0 : Option ℚ) (md : MarketData) (candles : List Candle) :
    Option (ℤ × PriceInfo) :=
  let fresh : Option (ℤ × PriceInfo) :=
    match fresh_price_info withSig S env nonceState now secid nominal0 md candles with
    | some info => some ((now : ℤ), info)
    | none => none
  match cached with
  | some c =>
      match get_price_for_secid_cached withSig c secid with
      | some resp => some resp
      | none => fresh
  | none => fresh

/-! ## Concrete inputs used by counterexamples and witnesses -/

/-- A market row where only `MARKETPRICE` is set, to `97.125`. -/
def mdMarketOnly : MarketData :=
  ⟨some (97125 / 1000), none, none, none, none, none⟩

/-- A signed price entry (the spec's scenario 2 data). -/
def sigEntry : PriceInfo :=
  [("price", JVal.num 97),
   ("price_uint", JVal.num 97000000),
   ("signature", JVal.str "0xabc"),
   ("nonce", JVal.num 5),
   ("deadline", JVal.num 2000000000)]

/-- A cached snapshot holding the one signed entry. -/
def snapSigned : PriceSnapshot :=
  ⟨1000, [("SU26207RMFS9", sigEntry)]⟩

/-- An unsigned price entry (no signature, nonce or deadline fields), as
produced by a request without `?sign`. -/
def unsignedEntry : PriceInfo :=
  [("price", JVal.num 97),
   ("price_uint", JVal.num 9700000000),
   ("is_current_market_data", JVal.bool true),
   ("data_source", JVal.str "market_price")]

/-- A cached snapshot holding the one unsigned entry. -/
def snapUnsigned : PriceSnapshot :=
  ⟨1000, [("SU26207RMFS9", unsignedEntry)]⟩

/-- A market row with all six price fields null. -/
def mdEmpty : MarketData := ⟨none, none, none, none, none, none⟩

/-- A trivial concrete `SignerEnv` for witnesses. -/
def envTrivial : SignerEnv :=
  ⟨fun bs => bs, fun _ => (1, 2, 0), 1, 2, 300⟩

/-- An attestation whose deadline (5) is already in the past at `now = 10`. -/
def dataExpired : OffchainData := ⟨some 100, some "0xab", some 5, some 1⟩

/-- An attestation whose deadline (20) is still in the future at `now = 10`. -/
def dataFresh : OffchainData := ⟨some 100, some "0xab", some 20, some 1⟩

/-! ## Helper lemmas -/

/-- The first components of `market_prices` agree with the spec's
first-non-null scan of the six fields. -/
theorem market_prices_fst (md : MarketData) :
    (market_prices md).map Prod.fst = (specScanFields md).findSome? id := by
  obtain ⟨f1, f2, f3, f4, f5, f6⟩ := md
  cases f1 <;> cases f2 <;> cases f3 <;> cases f4 <;> cases f5 <;> cases f6 <;>
    simp [market_prices, specScanFields]

/-- `market_prices` never attributes a value to the candle source. -/
theorem market_prices_src_ne_candle (md : MarketData) (v : ℚ) (src : String)
    (h : market_prices md = some (v, src)) : src ≠ "candle" := by
  obtain ⟨f1, f2, f3, f4, f5, f6⟩ := md
  cases f1 <;> cases f2 <;> cases f3 <;> cases f4 <;> cases f5 <;> cases f6 <;>
    simp_all [market_prices] <;> (obtain ⟨-, rfl⟩ := h; decide)

/-- Every nonce returned from in-memory counter `s` exceeds `s`. -/
theorem nonceReturns_gt_of_mem {s k a : ℕ} (h : a ∈ nonceReturns s k) : s < a := by
  induction k generalizing s with
  | zero => simp [nonceReturns] at h
  | succ k ih =>
      simp only [nonceReturns, get_next_nonce] at h
      rcases List.mem_cons.mp h with h | h
      · omega
      · have := ih h
        omega

/-! ## Claim theorems -/

/-- Claim C1, counterexample: with face value 1000 and `MARKETPRICE = 97.125`,
`get_price` returns the absolute price `971.25`, not the percentage
`97.125` that the claim (and the spec's resolver) states. -/
theorem c1_counterexample :
    get_price (some 1000) mdMarketOnly [] ≠ resolverSpec mdMarketOnly [] := by
  intro h
  have h1 := congrArg (fun p => p.1) h
  simp [get_price, get_price_detailed, market_prices, mdMarketOnly,
        resolverSpec, specScanFields] at h1
  norm_num at h1

/-- Claim C1, amended: `get_price` scans the six market fields in the claimed
priority order and falls back to the close of the last candle of the last 7
days, with `is_current` exactly as claimed, but the returned price is the
ABSOLUTE price `value * nominal / 100` — `nominal` being the bond's initial
face value, defaulting to 100 when absent or non-positive — rather than the
raw percentage of face value. -/
theorem c1_amended (nominal0 : Option ℚ) (md : MarketData) (candles : List Candle) :
    get_price nominal0 md candles = resolverAmendedSpec nominal0 md candles := by
  unfold get_price get_price_detailed resolverAmendedSpec
  rcases h : market_prices md with _ | ⟨v, src⟩
  · have hf := market_prices_fst md
    rw [h] at hf
    rw [← hf]
    cases candles.getLast? <;> simp
  · have hf := market_prices_fst md
    rw [h] at hf
    rw [← hf]
    have hsrc := market_prices_src_ne_candle md v src h
    simp [hsrc]

/-- Claim C2, code evaluated at the failing input: for resolved price
`97.125` and scaling factor `10^8`, the whole-snapshot endpoint computes
`round(97.125 * 100) * (S // 100) = 9712 * 10^6 = 9_712_000_000` (Python's
half-to-even rounding of `9712.5`), while the single-entry endpoint and the
spec's rule compute `round(97.125 * 1000) * (S // 1000) = 9_712_500_000`:
the two endpoints disagree, against the claim. -/
theorem c2_failing_input :
    price_uint_all (97125 / 1000) 100000000 = 9712000000 ∧
    price_uint_secid (97125 / 1000) 100000000 = 9712500000 ∧
    price_uint_secid (97125 / 1000) 100000000 =
      scaledPriceSpec (97125 / 1000) 100000000 ∧
    price_uint_all (97125 / 1000) 100000000 ≠
      scaledPriceSpec (97125 / 1000) 100000000 := by
  have hfa : ⌊((97125 : ℚ) / 1000) * 100⌋ = 9712 := by
    rw [Int.floor_eq_iff]
    norm_num
  have hfs : ⌊((97125 : ℚ) / 1000) * 1000⌋ = 97125 := by
    rw [Int.floor_eq_iff]
    norm_num
  have ha : price_uint_all (97125 / 1000) 100000000 = 9712000000 := by
    simp only [price_uint_all, pyRound, hfa]
    norm_num
  have hs : price_uint_secid (97125 / 1000) 100000000 = 9712500000 := by
    simp only [price_uint_secid, pyRound, hfs]
    norm_num
  refine ⟨ha, hs, rfl, ?_⟩
  rw [ha, show scaledPriceSpec (97125 / 1000) 100000000 =
        price_uint_secid (97125 / 1000) 100000000 from rfl, hs]
  decide

/-- Claim C4, code evaluated at the failing input: from an absent nonce
file, three `next()` calls return `1, 2, 3` and leave the file holding
`{"nonce": 3}`; after the file is corrupted, a reload resets the counter to
0 and the next `next()` call returns `1` — a nonce already returned before
the reload. (The save path, `save_nonce`, writes the file contents directly
in place; there is no temporary sibling file and no rename.) -/
theorem c4_failing_input :
    nonceReturns (load_nonce none) 3 = [1, 2, 3] ∧
    nonceFileAfter (load_nonce none) (save_nonce (load_nonce none) none) 3 =
      some (some 3) ∧
    (get_next_nonce (load_nonce (some none))).1 = 1 ∧
    (get_next_nonce (load_nonce (some none))).1 ∈ nonceReturns (load_nonce none) 3 := by
  refine ⟨rfl, rfl, rfl, by decide⟩

/-- Claim C5: initialised from an absent nonce file the counter is 0, so
the first `next()` call returns 1; and within one process lifetime the
nonces returned by any sequence of `next()` calls are strictly increasing. -/
theorem c5_first_nonce_and_monotonicity :
    (get_next_nonce (load_nonce none)).1 = 1 ∧
    ∀ (s k : ℕ), (nonceReturns s k).Pairwise (· < ·) := by
  refine ⟨rfl, ?_⟩
  intro s k
  induction k generalizing s with
  | zero => simp [nonceReturns]
  | succ k ih =>
      refine List.Pairwise.cons ?_ (ih (s + 1))
      intro a ha
      exact nonceReturns_gt_of_mem ha

/-- Pairs surviving `strip_signature` never carry the `signature` key. -/
theorem strip_signature_no_sig (info : PriceInfo) :
    ∀ kv ∈ strip_signature info, kv.1 ≠ "signature" := by
  intro kv hkv
  have := List.mem_filter.mp hkv
  simpa using this.2

/-- `strip_signature` is the identity on an entry with no `signature` key
(the case the single-SECID endpoint leaves unfiltered). -/
theorem strip_signature_eq_self (info : PriceInfo)
    (h : info.any (fun kv => kv.1 == "signature") = false) :
    strip_signature info = info := by
  rw [strip_signature, List.filter_eq_self]
  intro kv hkv
  have := List.any_eq_false.mp h kv hkv
  simpa using this

/-- Claim C3, counterexample: serving the signed cached snapshot
`snapSigned` to an unsigned `GET /api/prices` produces an entry that still
carries its `nonce` and `deadline` fields — the document does not lose all
three fields as the claim states. -/
theorem c3_counterexample :
    ¬ (∀ e ∈ (get_all_prices_cached false snapSigned).prices,
        ∀ kv ∈ e.2, kv.1 ≠ "signature" ∧ kv.1 ≠ "nonce" ∧ kv.1 ≠ "deadline") := by
  decide

/-- Claim C3, amended: an unsigned `GET /api/prices` (and likewise the
cached branch of `GET /api/prices/{secid}`) strips only the `signature`
field from each entry; `nonce` and `deadline` fields are served unchanged,
and the document is otherwise identical to the stored snapshot. -/
theorem c3_amended (snap : PriceSnapshot) (c : PriceSnapshot) (secid : String) :
    (get_all_prices_cached false snap).timestamp = snap.timestamp ∧
    (get_all_prices_cached false snap).prices =
      snap.prices.map (fun p => (p.1, strip_signature p.2)) ∧
    (∀ e ∈ (get_all_prices_cached false snap).prices,
        ∀ kv ∈ e.2, kv.1 ≠ "signature") ∧
    (∀ p ∈ snap.prices, ∀ kv ∈ p.2, kv.1 ≠ "signature" →
        (p.1, strip_signature p.2) ∈ (get_all_prices_cached false snap).prices ∧
        kv ∈ strip_signature p.2) ∧
    (∀ resp, get_price_for_secid_cached false c secid = some resp →
        resp.1 = c.timestamp ∧
        ∃ info, c.prices.lookup secid = some info ∧
          resp.2 = strip_signature info) := by
  have hB : (get_all_prices_cached false snap).prices =
      snap.prices.map (fun p => (p.1, strip_signature p.2)) := by
    unfold get_all_prices_cached
    by_cases h : snap.prices.isEmpty
    · have : snap.prices = [] := List.isEmpty_iff.mp h
      simp [h, this]
    · simp [h]
  have hA : (get_all_prices_cached false snap).timestamp = snap.timestamp := by
    unfold get_all_prices_cached
    by_cases h : snap.prices.isEmpty <;> simp [h]
  refine ⟨hA, hB, ?_, ?_, ?_⟩
  · intro e he kv hkv
    rw [hB] at he
    obtain ⟨p, -, rfl⟩ := List.mem_map.mp he
    exact strip_signature_no_sig p.2 kv hkv
  · intro p hp kv hkv hne
    refine ⟨?_, ?_⟩
    · rw [hB]
      exact List.mem_map.mpr ⟨p, hp, rfl⟩
    · exact List.mem_filter.mpr ⟨hkv, by simpa using hne⟩
  · intro resp hresp
    rcases hl : c.prices.lookup secid with _ | info
    · simp [get_price_for_secid_cached, hl] at hresp
    · simp only [get_price_for_secid_cached, hl, Bool.not_false, Bool.true_and,
        Option.some.injEq] at hresp
      by_cases hany : (info.any fun kv => kv.1 == "signature") = true
      · rw [if_pos hany] at hresp
        obtain rfl := hresp.symm
        exact ⟨rfl, info, rfl, rfl⟩
      · rw [if_neg hany] at hresp
        obtain rfl := hresp.symm
        exact ⟨rfl, info, rfl, (strip_signature_eq_self info
          (Bool.eq_false_iff.mpr hany)).symm⟩

/-- Claim C3 witness: on the concrete signed snapshot, the unsigned
whole-snapshot response keeps the stripped entry with its `nonce` pair, and
the unsigned single-SECID response is the timestamp with the stripped entry. -/
theorem c3_amended_witness :
    (("SU26207RMFS9", strip_signature sigEntry) ∈
        (get_all_prices_cached false snapSigned).prices ∧
      ("nonce", JVal.num 5) ∈ strip_signature sigEntry) ∧
    ((snapSigned.timestamp, strip_signature sigEntry) : ℤ × PriceInfo).1 =
        snapSigned.timestamp ∧
    ∃ info, snapSigned.prices.lookup "SU26207RMFS9" = some info ∧
      ((snapSigned.timestamp, strip_signature sigEntry) : ℤ × PriceInfo).2 =
        strip_signature info := by
  have h := c3_amended snapSigned snapSigned "SU26207RMFS9"
  refine ⟨h.2.2.2.1 ("SU26207RMFS9", sigEntry) (by decide)
    ("nonce", JVal.num 5) (by decide) (by decide), ?_⟩
  exact h.2.2.2.2 (snapSigned.timestamp, strip_signature sigEntry) (by decide)

/-- Claim C6: for a registered bond (current price present) and a
non-negative threshold, `should_update_price` answers true exactly when the
current price is zero or `|new - current| * 100 ≥ threshold * current`. -/
theorem c6_deviation_gate (t : ℚ) (newp c : ℕ) (_ht : 0 ≤ t) :
    (should_update_price t (newp : ℤ) (some (c : ℤ)) = true) ↔
      (c = 0 ∨ t * (c : ℚ) ≤ |(newp : ℚ) - (c : ℚ)| * 100) := by
  rw [show should_update_price t (newp : ℤ) (some (c : ℤ)) =
        (if (c : ℤ) = 0 then true
         else decide (|(((newp : ℤ)) : ℚ) - (((c : ℤ)) : ℚ)| /
           (((c : ℤ)) : ℚ) * 100 ≥ t)) from rfl]
  by_cases hc : c = 0
  · simp [hc]
  · have hcz : ((c : ℤ)) ≠ 0 := by exact_mod_cast hc
    rw [if_neg hcz]
    have hc0 : (0 : ℚ) < (c : ℚ) := by
      exact_mod_cast Nat.pos_of_ne_zero hc
    simp only [decide_eq_true_eq, ge_iff_le]
    push_cast
    rw [div_mul_eq_mul_div, le_div_iff₀ hc0]
    constructor
    · intro h
      exact Or.inr (by linarith)
    · rintro (h | h)
      · exact absurd h hc
      · linarith

/-- Claim C6 witness: current price 1, new price 2, threshold 1 — the gate
fires, and the claimed inequality holds. -/
theorem c6_deviation_gate_witness :
    (0 : ℚ) ≤ 1 ∧
    ((should_update_price 1 ((2 : ℕ) : ℤ) (some ((1 : ℕ) : ℤ)) = true) ↔
      ((1 : ℕ) = 0 ∨ (1 : ℚ) * ((1 : ℕ) : ℚ) ≤ |((2 : ℕ) : ℚ) - ((1 : ℕ) : ℚ)| * 100)) :=
  ⟨by norm_num, c6_deviation_gate 1 2 1 (by norm_num)⟩

/-- Claim C7: `create_signature`, called with no explicit nonce or deadline,
draws its nonce from the persistent store, sets
`deadline = now + SIGNATURE_EXPIRY_SECONDS`, computes the EIP-712 digest
`keccak256(0x19 || 0x01 || D || H)` over the BondOracle/1 domain separator
and the PriceUpdate struct hash `(keccak256(secid), price, nonce, deadline)`,
normalises `v` into 27/28 by adding 27 exactly when `v < 27`, and returns
the `0x`-hex of `abi.encode(bytes32 r, bytes32 s, uint8 v)` with that nonce
and deadline — i.e. it coincides with the spec's Signer algorithm for every
keccak/sign primitive, configuration, nonce state, clock and input. -/
theorem c7_signer_matches_spec (env : SignerEnv) (nonceState now : ℕ)
    (secid : String) (price : ℕ) :
    create_signature env nonceState now secid price =
      signerSpec env nonceState now secid price := rfl

/-- Claim C8: `get()` returns the stored snapshot exactly when the cache
file exists, parses as JSON, and `now - mtime ≤ CACHE_TTL`; absent, expired
or corrupted files all yield `none` (the embedding is total — the source
catches the corresponding exceptions). -/
theorem c8_cache_freshness (now ttl : ℚ) (fs : Option CacheFileState)
    (snap : PriceSnapshot) :
    get_cached_data now ttl fs = some snap ↔
      ∃ f, fs = some f ∧ f.content = some snap ∧ now - f.mtime ≤ ttl := by
  cases fs with
  | none => simp [get_cached_data]
  | some f =>
      simp only [get_cached_data, Option.some.injEq]
      by_cases h : now - f.mtime > ttl
      · rw [if_pos h]
        constructor
        · intro hcontr
          cases hcontr
        · rintro ⟨g, rfl, -, hle⟩
          linarith
      · rw [if_neg h]
        constructor
        · intro hcontent
          exact ⟨f, rfl, hcontent, not_lt.mp h⟩
        · rintro ⟨g, rfl, hcont, -⟩
          exact hcont

/-- Claim C9: in a publisher step, an attestation whose deadline has passed
(`deadline ≤ now`) is dropped — no transaction is submitted for that SECID;
and any submitted transaction carries a deadline strictly in the future and
exactly the attested price, deadline, nonce and (decoded) signature. -/
theorem c9_deadline_gate (t : ℚ) (now : ℕ) (cur : Option ℤ) (secid : String)
    (data : OffchainData) :
    (∀ d, data.deadline = some d → d ≤ now →
        process_single_price_update t now cur secid data = none) ∧
    (∀ tx, process_single_price_update t now cur secid data = some tx →
        now < tx.deadline ∧
        data.price_uint = some tx.price_uint ∧
        data.deadline = some tx.deadline ∧
        data.nonce = some tx.nonce ∧
        tx.secid = secid ∧
        ∃ sig, data.signature = some sig ∧
          prepare_signature sig = some tx.signature_bytes) := by
  obtain ⟨pu, sig, dl, non⟩ := data
  constructor
  · intro d hd hle
    cases pu with
    | none => rfl
    | some p =>
    cases sig with
    | none => rfl
    | some s =>
    cases dl with
    | none => exact absurd hd (by simp)
    | some d2 =>
    cases non with
    | none => rfl
    | some n =>
    obtain rfl : d2 = d := Option.some.inj hd
    simp only [process_single_price_update]
    by_cases hup : should_update_price t ((p : ℤ)) cur = true
    · rw [if_pos hup]
      rcases hdec : prepare_signature s with _ | bs
      · rfl
      · show (if d2 ≤ now then (none : Option TxRequest)
              else some ⟨secid, p, d2, n, bs⟩) = none
        rw [if_pos hle]
    · rw [if_neg hup]
  · intro tx htx
    cases pu with
    | none => cases htx
    | some p =>
    cases sig with
    | none => cases htx
    | some s =>
    cases dl with
    | none => cases htx
    | some d =>
    cases non with
    | none => cases htx
    | some n =>
    simp only [process_single_price_update] at htx
    by_cases hup : should_update_price t ((p : ℤ)) cur = true
    · rw [if_pos hup] at htx
      rcases hdec : prepare_signature s with _ | bs
      · rw [hdec] at htx
        cases htx
      · rw [hdec] at htx
        have htx2 : (if d ≤ now then (none : Option TxRequest)
            else some ⟨secid, p, d, n, bs⟩) = some tx := htx
        by_cases hdl : d ≤ now
        · rw [if_pos hdl] at htx2
          cases htx2
        · rw [if_neg hdl] at htx2
          obtain rfl := Option.some.inj htx2
          exact ⟨show now < d by omega, rfl, rfl, rfl, rfl, s, rfl, hdec⟩
    · rw [if_neg hup] at htx
      cases htx

/-- Claim C9 witness: at `now = 10`, the expired attestation (deadline 5)
yields no transaction, and the fresh attestation (deadline 20) yields a
transaction carrying exactly its attested values with a future deadline. -/
theorem c9_deadline_gate_witness :
    process_single_price_update 1 10 (some 0) "S" dataExpired = none ∧
    (10 < (⟨"S", 100, 20, 1, [171]⟩ : TxRequest).deadline ∧
     dataFresh.price_uint = some (⟨"S", 100, 20, 1, [171]⟩ : TxRequest).price_uint ∧
     dataFresh.deadline = some (⟨"S", 100, 20, 1, [171]⟩ : TxRequest).deadline ∧
     dataFresh.nonce = some (⟨"S", 100, 20, 1, [171]⟩ : TxRequest).nonce ∧
     (⟨"S", 100, 20, 1, [171]⟩ : TxRequest).secid = "S" ∧
     ∃ sig, dataFresh.signature = some sig ∧
       prepare_signature sig =
         some (⟨"S", 100, 20, 1, [171]⟩ : TxRequest).signature_bytes) :=
  ⟨(c9_deadline_gate 1 10 (some 0) "S" dataExpired).1 5 rfl (by decide),
   (c9_deadline_gate 1 10 (some 0) "S" dataFresh).2
     ⟨"S", 100, 20, 1, [171]⟩ (by decide)⟩

/-- Claim C10: on a cache hit, `GET /api/prices/{secid}?sign=true` serves
exactly the cached entry — for every signer environment and nonce state,
so no new signing occurs — and therefore a snapshot cached without
signatures is served without signature, nonce or deadline fields even
though the caller asked for a signed attestation. -/
theorem c10_cache_hit_serves_cached (c : PriceSnapshot) (secid : String)
    (info : PriceInfo) (S : ℕ) (env : SignerEnv) (nonceState now : ℕ)
    (nominal0 : Option ℚ) (md : MarketData) (candles : List Candle)
    (h : c.prices.lookup secid = some info) :
    get_price_for_secid_route true (some c) secid S env nonceState now
      nominal0 md candles = some (c.timestamp, info) := by
  simp [get_price_for_secid_route, get_price_for_secid_cached, h]

/-- Claim C10 witness: with the unsigned entry cached, a `sign=true`
request is answered with exactly that entry — in particular with no
signature, nonce or deadline fields — under a concrete signer environment. -/
theorem c10_cache_hit_serves_cached_witness :
    get_price_for_secid_route true (some snapUnsigned) "SU26207RMFS9"
      100000000 envTrivial 0 1700000000 none mdEmpty [] =
      some (snapUnsigned.timestamp, unsignedEntry) :=
  c10_cache_hit_serves_cached snapUnsigned "SU26207RMFS9" unsignedEntry
    100000000 envTrivial 0 1700000000 none mdEmpty [] (by decide)

end OfzContracts
